import Mathlib

/-!
Verification development for the `callq` concurrent call-analysis pipeline.

The definitions below are shallow embeddings of the Python source:

* `callq/utils/criterion_normalizer.py` — text normalization, the
  criterion mapping, and the exact-then-fuzzy label matcher;
* `callq/models/analysis_result.py`    — `Evaluation`, `Recommendation`,
  `Agreement`, `DeclineReason`, `Result` and their `from_list` builders;
* `callq/clients/llm.py`               — `LLM.evaluate_call_async`'s
  transport retry loop;
* `callq/pipelines/call_analysis.py`   — `analyze_single_call`'s inner
  JSON-retry loop and `analyze_calls_async.run_analysis`'s aggregation.

Modelling conventions:
* Python `dict` → association list in insertion order, where inserting an
  existing key overwrites its value in place (`dictInsert` / `dictGet?`).
* Python exceptions → `Option` / `Except` results.
* Python `float` arithmetic is idealized as exact `Rat` arithmetic.
* Python regex classes `\w` / `\s` are modelled exactly on ASCII; every
  non-ASCII character (e.g. Cyrillic letters, the repository's domain)
  is treated as a word character, and `str.lower` as ASCII lowering.
* `difflib.SequenceMatcher` is embedded without its autojunk heuristic,
  which only activates on strings of length ≥ 200 (far beyond taxonomy
  label sizes); junk is `None` in the source call sites.
* `asyncio` delays are recorded as a trace of sleep durations; the
  cooperative scheduler itself is not modelled.
-/

/-- Python `\s` on ASCII: space, tab, newline, carriage return,
vertical tab, form feed. -/
def isPySpace (c : Char) : Bool :=
  c = ' ' || c = '\t' || c = '\n' || c = '\r' || c.val = 11 || c.val = 12

/-- Python `\w` (Unicode alphanumerics and underscore), restricted to the
ASCII fragment; non-ASCII characters are treated as word characters. -/
def isWordChar (c : Char) : Bool :=
  c.isAlphanum || c = '_' || 127 < c.val.toNat

/-- Python `str.strip()` on a character list: drop whitespace from both ends. -/
def pyStripList (l : List Char) : List Char :=
  ((l.dropWhile isPySpace).reverse.dropWhile isPySpace).reverse

/-- `re.sub(r'\s+', ' ', ·)`: replace each maximal whitespace run by one
space.  The boolean records whether the previous character was whitespace. -/
def collapseWsAux : Bool → List Char → List Char
  | _, [] => []
  | prevSp, c :: rest =>
    if isPySpace c then
      if prevSp then collapseWsAux true rest
      else ' ' :: collapseWsAux true rest
    else c :: collapseWsAux false rest

def collapseWs (l : List Char) : List Char := collapseWsAux false l

/-- `re.sub(r'\s+', ' ', str(x).strip())` — the whitespace-collapse-only
cleanup used by the fallback branches of the source. -/
def cleanWs (s : String) : String := ⟨collapseWs (pyStripList s.data)⟩

/-- `normalize_text` from `criterion_normalizer.py`: empty in / empty out,
else strip, remove non-word non-space characters, collapse whitespace,
lower-case, strip again. -/
def normalize_text (s : String) : String :=
  if s = "" then ""
  else
    let l := pyStripList s.data
    let l := l.filter (fun c => isWordChar c || isPySpace c)
    let l := collapseWs l
    let l := l.map Char.toLower
    ⟨pyStripList l⟩

/-- Python dict insertion: overwrite in place if the key exists, else append. -/
def dictInsert {α β : Type} [DecidableEq α] (k : α) (v : β) :
    List (α × β) → List (α × β)
  | [] => [(k, v)]
  | (k', v') :: rest =>
    if k' = k then (k, v) :: rest else (k', v') :: dictInsert k v rest

/-- Python dict lookup (`key in d` / `d[key]`). -/
def dictGet? {α β : Type} [DecidableEq α] (k : α) :
    List (α × β) → Option β
  | [] => none
  | (k', v') :: rest => if k' = k then some v' else dictGet? k rest

/-- `Criterion` from `models/criterion.py`: one taxonomy row. -/
structure Criterion where
  category : String
  indicator : String
  comment : String
  score : Int
  criteria : String
deriving Repr, DecidableEq

/-- The normalized lookup key of a taxonomy entry. -/
def normKey (c : Criterion) : String × String :=
  (normalize_text c.category, normalize_text c.indicator)

/-- The canonical (original) pair of a taxonomy entry. -/
def origPair (c : Criterion) : String × String := (c.category, c.indicator)

/-- `(normalized category, normalized indicator) → (category, indicator)`. -/
abbrev CritMapping := List ((String × String) × (String × String))

/-- `build_criterion_mapping` from `criterion_normalizer.py`. -/
def build_criterion_mapping (criteria : List Criterion) : CritMapping :=
  criteria.foldl (fun m c => dictInsert (normKey c) (origPair c) m) []

/-- Length of the common suffix of `a[·..i]` and `b[·..j]` staying within
the range starts `alo` / `blo` — the quantity `difflib`'s inner dynamic
program (`j2len`) tracks per end position. -/
def suffLen (a b : List Char) (alo blo : Nat) : Nat → Nat → Nat
  | 0, j =>
    if alo = 0 ∧ blo ≤ j ∧ (a.get? 0).isSome ∧ a.get? 0 = b.get? j then 1 else 0
  | i + 1, 0 =>
    if alo ≤ i + 1 ∧ blo = 0 ∧ (a.get? (i + 1)).isSome ∧ a.get? (i + 1) = b.get? 0
    then 1 else 0
  | i + 1, j + 1 =>
    if alo ≤ i + 1 ∧ blo ≤ j + 1 ∧ (a.get? (i + 1)).isSome ∧
        a.get? (i + 1) = b.get? (j + 1)
    then suffLen a b alo blo i j + 1 else 0

/-- The scan order of `find_longest_match`: end positions `i` ascending over
`[alo, ahi)`, and for each `i` the positions `j ∈ [blo, bhi)` with
`b[j] = a[i]` ascending (the `b2j` index). -/
def flmPairs (a b : List Char) (alo ahi blo bhi : Nat) : List (Nat × Nat) :=
  (List.range' alo (ahi - alo)).flatMap fun i =>
    (List.range' blo (bhi - blo)).filterMap fun j =>
      if (a.get? i).isSome ∧ a.get? i = b.get? j then some (i, j) else none

/-- `SequenceMatcher.find_longest_match` (no junk): fold the scan order with
strict improvement on the block size, starting from `(alo, blo, 0)`. -/
def findLongestMatch (a b : List Char) (alo ahi blo bhi : Nat) :
    Nat × Nat × Nat :=
  (flmPairs a b alo ahi blo bhi).foldl
    (fun best ij =>
      let k := suffLen a b alo blo ij.1 ij.2
      if best.2.2 < k then (ij.1 + 1 - k, ij.2 + 1 - k, k) else best)
    (alo, blo, 0)

/-- Total size of the matching blocks of `get_matching_blocks`, computed by
the recursive split around each longest match.  Each recursion level removes
at least one character from the ranges, so a fuel of
`a.length + b.length + 1` always suffices. -/
def matchTotalFuel (a b : List Char) : Nat → Nat → Nat → Nat → Nat → Nat
  | 0, _, _, _, _ => 0
  | fuel + 1, alo, ahi, blo, bhi =>
    let r := findLongestMatch a b alo ahi blo bhi
    let i := r.1
    let j := r.2.1
    let k := r.2.2
    if k = 0 then 0
    else
      matchTotalFuel a b fuel alo i blo j + k +
        matchTotalFuel a b fuel (i + k) ahi (j + k) bhi

def matchTotal (a b : List Char) : Nat :=
  matchTotalFuel a b (a.length + b.length + 1) 0 a.length 0 b.length

/-- `SequenceMatcher(None, a, b).ratio()`: `2 M / T` with `T` the total
length, and `1` when both strings are empty (`_calculate_ratio`).  Written
with `Rat.divInt` (the exact fraction `2·M / T`) so that the definition
evaluates by kernel reduction; `seqRatio_eq_div` restates it with `/`. -/
def seqRatio (sa sb : String) : Rat :=
  let a := sa.data
  let b := sb.data
  let length := a.length + b.length
  if length = 0 then 1 else Rat.divInt (2 * (matchTotal a b : Int)) length

/-- The default `similarity_threshold = 0.85` of the normalizer functions. -/
def similarity_threshold : Rat := Rat.divInt 85 100

/-- The arithmetic mean `(x + y) / 2`, written on the
numerator/denominator representation so that it evaluates by kernel
reduction; `ratAvg_eq` proves it equal to `(x + y) / 2`. -/
def ratAvg (x y : Rat) : Rat :=
  Rat.divInt (x.num * y.den + y.num * x.den) (2 * (x.den * y.den))

/-- The per-entry score of the fuzzy loop: the arithmetic mean of the
category and criterion similarity ratios. -/
def avgSim (nlc nlcr : String) (e : (String × String) × (String × String)) :
    Rat :=
  ratAvg (seqRatio nlc e.1.1) (seqRatio nlcr e.1.2)

/-- The fuzzy-matching fold of `find_best_match`: strict improvement on the
running best similarity (`if avg_similarity > best_similarity`). -/
def fuzzyFold (nlc nlcr : String) :
    List ((String × String) × (String × String)) →
      Option (String × String) × Rat → Option (String × String) × Rat
  | [], acc => acc
  | e :: rest, (bm, bs) =>
    if bs < avgSim nlc nlcr e then
      fuzzyFold nlc nlcr rest (some e.2, avgSim nlc nlcr e)
    else fuzzyFold nlc nlcr rest (bm, bs)

/-- `find_best_match` from `criterion_normalizer.py`: exact lookup on the
normalized pair, else the fuzzy loop; return the best entry when its score
reaches the threshold, else the whitespace-collapsed inputs. -/
def find_best_match (llm_category llm_criterion : String)
    (mapping : CritMapping) : Option (String × String) :=
  let nlc := normalize_text llm_category
  let nlcr := normalize_text llm_criterion
  match dictGet? (nlc, nlcr) mapping with
  | some v => some v
  | none =>
    let r := fuzzyFold nlc nlcr mapping (none, 0)
    if similarity_threshold ≤ r.2 then r.1
    else some (cleanWs llm_category, cleanWs llm_criterion)

/-- `normalize_category_and_criterion` from `criterion_normalizer.py`. -/
def normalize_category_and_criterion (llm_category llm_criterion : String)
    (mapping : CritMapping) : String × String :=
  match find_best_match llm_category llm_criterion mapping with
  | some p => p
  | none => (cleanWs llm_category, cleanWs llm_criterion)

/-- The deduplicated category dictionary of `normalize_category_only`
(first occurrence of each normalized category wins). -/
def uniqueCategories (mapping : CritMapping) : List (String × String) :=
  mapping.foldl
    (fun acc e =>
      match dictGet? e.1.1 acc with
      | some _ => acc
      | none => acc ++ [(e.1.1, e.2.1)])
    []

/-- `normalize_category_only` from `criterion_normalizer.py`. -/
def normalize_category_only (llm_category : String) (mapping : CritMapping) :
    String :=
  let nlc := normalize_text llm_category
  let uniq := uniqueCategories mapping
  match dictGet? nlc uniq with
  | some v => v
  | none =>
    let r := uniq.foldl
      (fun (best : Option String × Rat) e =>
        if best.2 < seqRatio nlc e.1 then (some e.2, seqRatio nlc e.1) else best)
      (none, 0)
    if similarity_threshold ≤ r.2 then
      match r.1 with
      | some v => v
      | none => cleanWs llm_category
    else cleanWs llm_category

/-- One element of the model's `evaluations[]` array; absent JSON keys are
`none` (`item.get(...)`). -/
structure EvalItem where
  category : Option String
  criterion : Option String
  score_given : Option Int
  max_score : Option Int
  reason : Option String
deriving Repr, DecidableEq

/-- `Evaluation` from `models/analysis_result.py`. -/
structure Evaluation where
  category : String
  criterion : String
  score_given : Option Int
  max_score : Option Int
  reason : Option String
deriving Repr, DecidableEq

/-- The per-item body of `Evaluation.from_list`: label handling, then the
score clamp (`if score_given > max_score … elif score_given < 0`), which
runs only when both values are present. -/
def evalOfItem (criterion_mapping : Option CritMapping) (item : EvalItem) :
    Evaluation :=
  let llm_category := item.category.getD ""
  let llm_criterion := item.criterion.getD ""
  let pair :=
    match criterion_mapping with
    | some m =>
      if m.isEmpty then (cleanWs llm_category, cleanWs llm_criterion)
      else normalize_category_and_criterion llm_category llm_criterion m
    | none => (cleanWs llm_category, cleanWs llm_criterion)
  let scores :=
    match item.score_given, item.max_score with
    | some s, some mx =>
      if mx < s then (some mx, some mx)
      else if s < 0 then ((some 0 : Option Int), some mx)
      else (some s, some mx)
    | s, mx => (s, mx)
  { category := pair.1
    criterion := pair.2
    score_given := scores.1
    max_score := scores.2
    reason := item.reason }

/-- `Evaluation.from_list` from `models/analysis_result.py`. -/
def Evaluation.from_list (items : List EvalItem)
    (criterion_mapping : Option CritMapping) : List Evaluation :=
  items.map (evalOfItem criterion_mapping)

/-- One element of the model's `recommendations[]` array. -/
structure RecItem where
  category : Option String
  issue : Option String
  recommendation : Option String
  priority : Option String
deriving Repr, DecidableEq

/-- `Recommendation` from `models/analysis_result.py`. -/
structure Recommendation where
  category : String
  issue : String
  recommendation : String
  priority : String
deriving Repr, DecidableEq

/-- Python truthiness of an optional string: `None` and `""` are falsy. -/
def strTruthy : Option String → Bool
  | none => false
  | some s => s ≠ ""

/-- `Recommendation.from_list` from `models/analysis_result.py`: priority is
stripped/lowered and defaulted to `medium` outside `{high, medium, low}`;
entries missing issue or recommendation text are dropped; the category is
normalized via `normalize_category_only` when a (truthy) mapping is given,
else whitespace-collapsed. -/
def Recommendation.from_list (items : List RecItem)
    (criterion_mapping : Option CritMapping) : List Recommendation :=
  items.filterMap fun item =>
    let priority_clean :=
      match item.priority with
      | some p => ⟨(pyStripList p.data).map Char.toLower⟩
      | none => ""
    let priority_clean :=
      if priority_clean = "high" ∨ priority_clean = "medium" ∨
          priority_clean = "low"
      then priority_clean else "medium"
    if ¬ (strTruthy item.issue ∧ strTruthy item.recommendation) then none
    else
      let llm_category := item.category.getD ""
      let category :=
        match criterion_mapping with
        | some m =>
          if m.isEmpty then cleanWs llm_category
          else normalize_category_only llm_category m
        | none => cleanWs llm_category
      some
        { category := category
          issue := item.issue.getD ""
          recommendation := item.recommendation.getD ""
          priority := priority_clean }

/-- One element of the model's `agreements[]` array. -/
structure AgrItem where
  amount : Option Int
  agreement : Option String
deriving Repr, DecidableEq

/-- `Agreement` from `models/analysis_result.py`. -/
structure Agreement where
  amount : Option Int
  agreement : String
deriving Repr, DecidableEq

/-- `Agreement.from_list`: entries whose agreement text is empty after
trimming are dropped. -/
def Agreement.from_list (items : List AgrItem) : List Agreement :=
  items.filterMap fun item =>
    let agreement_text :=
      match item.agreement with
      | some s => (⟨pyStripList s.data⟩ : String)
      | none => ""
    if agreement_text = "" then none
    else some { amount := item.amount, agreement := agreement_text }

/-- One element of the model's `decline_reasons[]` array. -/
structure DeclItem where
  reason_type : Option String
  reason_description : Option String
  product_category : Option String
deriving Repr, DecidableEq

/-- `DeclineReason` from `models/analysis_result.py`. -/
structure DeclineReason where
  reason_type : String
  reason_description : String
  product_category : Option String
deriving Repr, DecidableEq

/-- `DeclineReason.from_list`: entries whose description is empty after
trimming are dropped; a trimmed-empty product category becomes `None`. -/
def DeclineReason.from_list (items : List DeclItem) : List DeclineReason :=
  items.filterMap fun item =>
    let description :=
      match item.reason_description with
      | some s => (⟨pyStripList s.data⟩ : String)
      | none => ""
    if description = "" then none
    else
      let reason_type :=
        match item.reason_type with
        | some s => (⟨pyStripList s.data⟩ : String)
        | none => ""
      let product_category :=
        match item.product_category with
        | some s =>
          if (⟨pyStripList s.data⟩ : String) = "" then none
          else some (⟨pyStripList s.data⟩ : String)
        | none => none
      some
        { reason_type := reason_type
          reason_description := description
          product_category := product_category }

/-- The parsed JSON mapping handed to `Result.from_list`; each field is
`none` when its key is absent or null in the model's JSON. -/
structure LLMData where
  is_sales_call : Option Bool
  evaluations : Option (List EvalItem)
  recommendations : Option (List RecItem)
  agreements : Option (List AgrItem)
  decline_reasons : Option (List DeclItem)
deriving Repr, DecidableEq

/-- `int(q)` in Python: truncation toward zero of a (here exact) quotient. -/
def pyInt (q : Rat) : Int :=
  if q < 0 then -((-q).floor) else q.floor

/-- `Result` from `models/analysis_result.py`. -/
structure Result where
  is_sales_call : Bool
  total_score : Int
  max_possible_score : Int
  performance_percentage : Int
  evaluations : List Evaluation
  recommendations : List Recommendation
  agreements : List Agreement
  decline_reasons : Option (List DeclineReason)
deriving Repr, DecidableEq

/-- `Result.from_list` from `models/analysis_result.py`.  Iterating a `None`
value for `evaluations`, `recommendations` or `agreements` raises a
`TypeError` in the source, modelled as `none`; `decline_reasons` is guarded
by a truthiness check (`if decline_reasons_data else None`), so absent, null
and empty all yield `None`.  The division computing
`performance_percentage` is idealized as exact rational arithmetic. -/
def Result.from_list (data : LLMData)
    (criterion_mapping : Option CritMapping) : Option Result :=
  let decline_reasons :=
    match data.decline_reasons with
    | some l => if l.isEmpty then none else some (DeclineReason.from_list l)
    | none => none
  match data.evaluations, data.recommendations, data.agreements with
  | some evItems, some recItems, some agrItems =>
    let evaluations := Evaluation.from_list evItems criterion_mapping
    let total_score : Int :=
      (evaluations.filterMap (fun e => e.score_given)).foldl (· + ·) 0
    let max_possible_score : Int :=
      (evaluations.filterMap (fun e => e.max_score)).foldl (· + ·) 0
    let performance_percentage :=
      if 0 < max_possible_score then
        pyInt (Rat.divInt (100 * total_score) max_possible_score)
      else 0
    some
      { is_sales_call := data.is_sales_call.getD false
        total_score := total_score
        max_possible_score := max_possible_score
        performance_percentage := performance_percentage
        evaluations := evaluations
        recommendations := Recommendation.from_list recItems criterion_mapping
        agreements := Agreement.from_list agrItems
        decline_reasons := decline_reasons }
  | _, _, _ => none

/-- Outcome of one HTTP exchange inside `LLM.evaluate_call_async`.  For a
`response`, `content` is the first choice's message content (empty when the
`choices`/`message`/`content` chain is missing or empty), `tokens` the usage
total, and `body` the response text used in error messages. -/
inductive HttpOutcome where
  | response (status : Nat) (content : String) (tokens : Nat) (body : String)
  | netErr (msg : String)
deriving Repr, DecidableEq

/-- The payload of a successful `LLMResponse` as the pipeline consumes it:
`get_content()` and `get_tokens_used()`. -/
structure LLMResp where
  content : String
  tokens : Nat
deriving Repr, DecidableEq

/-- The terminal errors `evaluate_call_async` can raise, keyed by the branch
that raises them, carrying the last status and body (or exception text). -/
inductive CallError where
  | emptyResponse
  | rateLimit (status : Nat) (body : String)
  | serverError (status : Nat) (body : String)
  | clientError (status : Nat) (body : String)
  | network (msg : String)
  | loopExit
deriving Repr, DecidableEq

/-- Trace of one `evaluate_call_async` run: the returned value or raised
error, how many HTTP exchanges were issued, and the sleeps performed
(in seconds), in order. -/
structure EvalTrace where
  result : Except CallError LLMResp
  attempts : Nat
  delays : List Nat
deriving Repr

/-- The attempt loop of `LLM.evaluate_call_async` (`clients/llm.py`):
`attemptsLeft` enumerates the remaining iterations of
`for attempt in range(3)`; `attempt < max_retries - 1` is `rest ≠ []`.
Statuses other than 200/429/5xx/≥400 (1xx, 2xx≠200, 3xx) match no branch
and fall through to the next iteration with no sleep, as in the source. -/
def evalGo (exchanges : Nat → HttpOutcome) :
    List Nat → Nat → List Nat → EvalTrace
  | [], att, delays => { result := .error .loopExit, attempts := att, delays }
  | cur :: rest, att, delays =>
    match exchanges cur with
    | .response s content tokens body =>
      if s = 200 then
        if content = "" then
          { result := .error .emptyResponse, attempts := att + 1, delays }
        else
          { result := .ok ⟨content, tokens⟩, attempts := att + 1, delays }
      else if s = 429 then
        if rest.isEmpty then
          { result := .error (.rateLimit s body), attempts := att + 1, delays }
        else evalGo exchanges rest (att + 1) (delays ++ [60])
      else if 500 ≤ s ∧ s < 600 then
        if rest.isEmpty then
          { result := .error (.serverError s body), attempts := att + 1, delays }
        else evalGo exchanges rest (att + 1) (delays ++ [60])
      else if 400 ≤ s then
        if rest.isEmpty then
          { result := .error (.clientError s body), attempts := att + 1, delays }
        else evalGo exchanges rest (att + 1) (delays ++ [60])
      else evalGo exchanges rest (att + 1) delays
    | .netErr m =>
      if rest.isEmpty then
        { result := .error (.network m), attempts := att + 1, delays }
      else evalGo exchanges rest (att + 1) (delays ++ [60])

/-- `LLM.evaluate_call_async` with `max_retries = 3`: the `n`-th element of
`exchanges` is the outcome of the `n`-th HTTP exchange. -/
def evaluate_call_async (exchanges : Nat → HttpOutcome) : EvalTrace :=
  evalGo exchanges [0, 1, 2] 0 []

/-- `CallRecord` (projected to the fields `analyze_single_call` reads):
its identifier and whether a transcription is attached. -/
structure CallRecord where
  segment_id : String
  transcription : Option (List (String × String))
deriving Repr, DecidableEq

/-- Outcome of one iteration of `analyze_single_call`'s inner loop up to and
including `parse_llm_response`: a parsed mapping with its token count, a
`json.JSONDecodeError`, or any other captured exception (exhausted transport
retries, the empty-response `ValueError`, …). -/
inductive AttemptResult where
  | ok (data : LLMData) (tokens : Nat)
  | parseFail
  | err
deriving Repr, DecidableEq

/-- `CallAnalysisReport` from `models/call_analysis_report.py`. -/
structure CallAnalysisReport where
  call_record : CallRecord
  analysis_result : Result
deriving Repr, DecidableEq

/-- Trace of one `analyze_single_call` run: the returned value (`none` for
the filtered, failed and exhausted cases alike), how many full
`evaluate_call_async` invocations were issued, and the inner-loop sleeps
(in seconds), in order. -/
structure AnalyzeTrace where
  result : Option (CallAnalysisReport × Nat)
  llmCalls : Nat
  delays : List Nat
deriving Repr, DecidableEq

/-- The inner loop of `analyze_single_call` (`pipelines/call_analysis.py`),
with `max_json_retries = 3`.  On a parsed response: a falsy `is_sales_call`
returns `None`; a `Result.from_list` failure is caught by the generic
handler (sleep 1, return `None`); otherwise the report is returned.  On a
`JSONDecodeError`: sleep 1 and re-issue the full remote call, except on the
last attempt, which returns `None` with no sleep.  On any other exception:
sleep 1 and return `None`.  The crucial detail for the run statistics is
that every failure path returns `None`, indistinguishable from the filtered
non-sales case. -/
def analyzeGo (call : CallRecord) (attempts : Nat → AttemptResult) :
    List Nat → Nat → List Nat → AnalyzeTrace
  | [], calls, delays => { result := none, llmCalls := calls, delays }
  | cur :: rest, calls, delays =>
    match attempts cur with
    | .ok data tokens =>
      if ¬ (data.is_sales_call.getD false) then
        { result := none, llmCalls := calls + 1, delays }
      else
        match Result.from_list data none with
        | some r =>
          { result := some (⟨call, r⟩, tokens), llmCalls := calls + 1, delays }
        | none =>
          { result := none, llmCalls := calls + 1, delays := delays ++ [1] }
    | .parseFail =>
      if rest.isEmpty then
        { result := none, llmCalls := calls + 1, delays }
      else analyzeGo call attempts rest (calls + 1) (delays ++ [1])
    | .err =>
      { result := none, llmCalls := calls + 1, delays := delays ++ [1] }

/-- `analyze_single_call`: calls without a transcription return `None`
before issuing anything; note the pipeline's `Result.from_list` call passes
no criterion mapping. -/
def analyze_single_call (call : CallRecord)
    (attempts : Nat → AttemptResult) : AnalyzeTrace :=
  if call.transcription.isNone then
    { result := none, llmCalls := 0, delays := [] }
  else analyzeGo call attempts [0, 1, 2] 0 []

/-- One settled task as seen by `asyncio.gather(..., return_exceptions=True)`:
either an exception object or the coroutine's return value. -/
inductive GatherOutcome where
  | exn
  | completed (r : Option (CallAnalysisReport × Nat))
deriving Repr, DecidableEq

/-- The run statistics accumulated by `run_analysis`. -/
structure RunStats where
  successful_results : List CallAnalysisReport
  total_tokens : Nat
  filtered_count : Nat
  error_count : Nat
deriving Repr, DecidableEq

/-- The aggregation loop of `analyze_calls_async.run_analysis`
(`pipelines/call_analysis.py`, lines 163–186): exceptions bump the error
counter, `None` results the filtered counter, and pairs are appended to the
successful results with their tokens. -/
def aggregateResults (results : List GatherOutcome) : RunStats :=
  results.foldl
    (fun stats r =>
      match r with
      | .exn => { stats with error_count := stats.error_count + 1 }
      | .completed none =>
        { stats with filtered_count := stats.filtered_count + 1 }
      | .completed (some (report, tokens)) =>
        { stats with
          successful_results := stats.successful_results ++ [report]
          total_tokens := stats.total_tokens + tokens } )
    { successful_results := [], total_tokens := 0, filtered_count := 0
      error_count := 0 }

/-- `run_analysis` composed with `analyze_single_call`: filter the calls
with a transcription, run each task (scripted by `script`), and aggregate.
In the model the coroutine body never escapes with an exception, matching
the source's catch-all handler around its remote interaction. -/
def run_analysis (calls : List CallRecord)
    (script : CallRecord → Nat → AttemptResult) : RunStats :=
  let calls_with_transcription := calls.filter (·.transcription.isSome)
  aggregateResults
    (calls_with_transcription.map
      (fun c => .completed (analyze_single_call c (script c)).result))

/-- Spec-side scoring function (§4.5's words): the arithmetic mean of the
character-sequence similarity ratios of the normalized category strings and
of the normalized criterion strings, written as `(· + ·) / 2`. -/
def specAvg (nlc nlcr : String)
    (e : (String × String) × (String × String)) : Rat :=
  (seqRatio nlc e.1.1 + seqRatio nlcr e.1.2) / 2

/-- Spec-side best similarity: the maximum of the per-entry scores, with
the loop's starting value `0`. -/
def bestSimSpec (nlc nlcr : String) (mapping : CritMapping) : Rat :=
  (mapping.map (specAvg nlc nlcr)).foldl max 0

/-- The first mapping entry attaining the best similarity — the spec's
"first maximum encountered wins ties". -/
def firstBestEntry (nlc nlcr : String) (mapping : CritMapping) :
    Option ((String × String) × (String × String)) :=
  mapping.find? (fun e => specAvg nlc nlcr e = bestSimSpec nlc nlcr mapping)

/-! ## Helper lemmas -/

theorem seqRatio_eq_div (sa sb : String) :
    seqRatio sa sb =
      if sa.data.length + sb.data.length = 0 then 1
      else (2 * (matchTotal sa.data sb.data : Rat)) /
        ((sa.data.length + sb.data.length : Nat) : Rat) := by
  rw [seqRatio]
  split_ifs with h
  · rfl
  · rw [Rat.divInt_eq_div]
    push_cast
    ring

theorem ratAvg_eq (x y : Rat) : ratAvg x y = (x + y) / 2 := by
  have hxd : ((x.den : Nat) : Rat) ≠ 0 := Nat.cast_ne_zero.mpr x.den_nz
  have hyd : ((y.den : Nat) : Rat) ≠ 0 := Nat.cast_ne_zero.mpr y.den_nz
  have hx : (x.num : Rat) = x * (x.den : Rat) :=
    (div_eq_iff hxd).mp (Rat.num_div_den x)
  have hy : (y.num : Rat) = y * (y.den : Rat) :=
    (div_eq_iff hyd).mp (Rat.num_div_den y)
  rw [ratAvg, Rat.divInt_eq_div]
  push_cast
  rw [div_eq_div_iff (by positivity) (by norm_num : (2 : Rat) ≠ 0), hx, hy]
  ring

theorem foldl_add_eq_sum (l : List Int) (a : Int) :
    l.foldl (· + ·) a = a + l.sum := by
  induction l generalizing a with
  | nil => simp
  | cons x t ih => simp [List.foldl_cons, ih, List.sum_cons]; ring

/-! ## Claim theorems: retry behavior and orchestrator statistics -/

/-- C5: for a remote call whose HTTP exchange returns status 429 on the
first two attempts and status 200 with a non-empty message on the third,
`evaluate_call_async` returns the successful response after exactly two
fixed 60-second delays and exactly 3 attempts in total. -/
theorem C5_retry_429_then_ok (ex : Nat → HttpOutcome)
    (c0 b0 c1 b1 content body : String) (t0 t1 tokens : Nat)
    (h0 : ex 0 = .response 429 c0 t0 b0)
    (h1 : ex 1 = .response 429 c1 t1 b1)
    (h2 : ex 2 = .response 200 content tokens body)
    (hc : content ≠ "") :
    evaluate_call_async ex =
      { result := .ok ⟨content, tokens⟩, attempts := 3, delays := [60, 60] } := by
  simp [evaluate_call_async, evalGo, h0, h1, h2, hc]

/-- Witness for C5 at a concrete exchange script. -/
theorem C5_retry_429_then_ok_witness :
    evaluate_call_async
        (fun n =>
          if n = 0 then .response 429 "" 0 "b0"
          else if n = 1 then .response 429 "" 0 "b1"
          else .response 200 "hello" 7 "") =
      { result := .ok ⟨"hello", 7⟩, attempts := 3, delays := [60, 60] } :=
  C5_retry_429_then_ok _ "" "b0" "" "b1" "hello" "" 0 0 7 rfl rfl rfl
    (by decide)

/-- C6: for a remote call whose HTTP exchange returns a status in
`[500, 600)` on every attempt, `evaluate_call_async` raises a terminal
error carrying the last status and body after exactly the third attempt;
no fourth exchange is consulted (the hypotheses constrain only the first
three). -/
theorem C6_server_error_exhaustion (ex : Nat → HttpOutcome)
    (s0 s1 s2 : Nat) (c0 b0 c1 b1 c2 b2 : String) (t0 t1 t2 : Nat)
    (h0 : ex 0 = .response s0 c0 t0 b0)
    (h1 : ex 1 = .response s1 c1 t1 b1)
    (h2 : ex 2 = .response s2 c2 t2 b2)
    (hs0 : 500 ≤ s0 ∧ s0 < 600) (hs1 : 500 ≤ s1 ∧ s1 < 600)
    (hs2 : 500 ≤ s2 ∧ s2 < 600) :
    evaluate_call_async ex =
      { result := .error (.serverError s2 b2), attempts := 3,
        delays := [60, 60] } := by
  simp [evaluate_call_async, evalGo, h0, h1, h2, hs0, hs1, hs2,
    show s0 ≠ 200 by omega, show s0 ≠ 429 by omega,
    show s1 ≠ 200 by omega, show s1 ≠ 429 by omega,
    show s2 ≠ 200 by omega, show s2 ≠ 429 by omega]

/-- Witness for C6 at a concrete exchange script (503 on every attempt). -/
theorem C6_server_error_exhaustion_witness :
    evaluate_call_async (fun _ => .response 503 "" 0 "oops") =
      { result := .error (.serverError 503 "oops"), attempts := 3,
        delays := [60, 60] } :=
  C6_server_error_exhaustion _ 503 503 503 "" "oops" "" "oops" "" "oops"
    0 0 0 rfl rfl rfl (by omega) (by omega) (by omega)

/-- C7: the inner JSON-validity loop of `analyze_single_call` has its own
budget of 3 attempts: when every parse fails, exactly 3 full
`evaluate_call_async` invocations are issued (each attempt re-issues the
complete remote call), a fixed 1-second delay separates consecutive
attempts (two delays), and after the third failed parse the call is
abandoned (`none`) rather than retried a fourth time. -/
theorem C7_json_retry_budget (call : CallRecord)
    (attempts : Nat → AttemptResult)
    (ht : call.transcription.isSome)
    (hp : ∀ j < 3, attempts j = .parseFail) :
    analyze_single_call call attempts =
      { result := none, llmCalls := 3, delays := [1, 1] } := by
  have h0 := hp 0 (by omega)
  have h1 := hp 1 (by omega)
  have h2 := hp 2 (by omega)
  simp [analyze_single_call, Option.isNone_iff_eq_none, analyzeGo, h0, h1, h2,
    Option.isSome_iff_ne_none.mp ht]

/-- Witness for C7 at a concrete call and attempt script. -/
theorem C7_json_retry_budget_witness :
    analyze_single_call ⟨"s1", some [("operator", "hi")]⟩
        (fun _ => .parseFail) =
      { result := none, llmCalls := 3, delays := [1, 1] } :=
  C7_json_retry_budget _ _ rfl (fun _ _ => rfl)

/-- C1: a batch of one transcribed call whose every attempt ends in a
captured exception is tallied by `run_analysis` under the *filtered*
counter (`filtered_count = 1`, `error_count = 0`), because
`analyze_single_call` returns `None` for captured failures and exhausted
retries exactly as it does for non-sales calls — contradicting the
spec's (and the summary log's) claim that such a task increments the
failed counter. -/
theorem C1_captured_error_counted_as_filtered :
    run_analysis [⟨"s1", some [("operator", "hi")]⟩] (fun _ _ => .err) =
      { successful_results := [], total_tokens := 0, filtered_count := 1,
        error_count := 0 } := by
  decide

/-! ## Claim theorems: the Result Builder -/

/-- C10: `Result.from_list` succeeds exactly when the keys `evaluations`,
`recommendations` and `agreements` are all present and non-null (possibly
empty lists); a missing `decline_reasons` is tolerated (the success
condition does not mention it). -/
theorem C10_required_keys (data : LLMData) (m : Option CritMapping) :
    (Result.from_list data m).isSome =
      (data.evaluations.isSome && data.recommendations.isSome &&
        data.agreements.isSome) := by
  rcases data with ⟨s, ev, rec, agr, dr⟩
  cases ev <;> cases rec <;> cases agr <;> simp [Result.from_list]

/-- C3 counterexample: with model-supplied `score_given = 1` and
`max_score = -1`, the validated evaluation carries
`score_given = some (-1)`, violating `0 ≤ score_given`: the clamp's
`elif` never re-checks after capping to a negative maximum. -/
theorem C3_counterexample :
    ∃ e ∈ Evaluation.from_list
        [⟨some "c", some "cr", some 1, some (-1), none⟩] none,
      e.score_given = some (-1) ∧ e.max_score = some (-1) ∧ (-1 : Int) < 0 :=
  ⟨evalOfItem none ⟨some "c", some "cr", some 1, some (-1), none⟩,
    by simp [Evaluation.from_list], by decide, by decide, by decide⟩

/-- C3 (amended): for every evaluation produced by `Evaluation.from_list`
whose score and maximum are both present, `0 ≤ score_given ≤ max_score`
holds provided the supplied `max_score` is nonnegative (negative maxima —
never produced by a well-formed taxonomy but possible from the model —
escape the clamp). -/
theorem C3_clamp_nonneg_max (items : List EvalItem) (m : Option CritMapping) :
    ∀ e ∈ Evaluation.from_list items m, ∀ s mx : Int,
      e.score_given = some s → e.max_score = some mx → 0 ≤ mx →
      0 ≤ s ∧ s ≤ mx := by
  intro e he s mx hs hmx hnn
  simp only [Evaluation.from_list, List.mem_map] at he
  obtain ⟨item, _, rfl⟩ := he
  revert hs hmx
  simp only [evalOfItem]
  cases hsg : item.score_given <;> cases hms : item.max_score <;>
    simp_all <;> split_ifs <;> simp_all <;> omega

/-- Witness for C3 (amended) at a concrete item (score 5 capped to
maximum 3). -/
theorem C3_clamp_nonneg_max_witness :
    (evalOfItem none ⟨some "c", some "cr", some 5, some 3, none⟩).score_given
        = some 3 ∧ (0 ≤ (3 : Int) ∧ (3 : Int) ≤ 3) :=
  ⟨by decide,
    C3_clamp_nonneg_max [⟨some "c", some "cr", some 5, some 3, none⟩] none
      (evalOfItem none ⟨some "c", some "cr", some 5, some 3, none⟩)
      (by simp [Evaluation.from_list]) 3 3 (by decide) (by decide)
      (by decide)⟩

/-- C4 counterexample: evaluations summing to `total_score = -1` with
`max_possible_score = 3` (reachable because a negative score whose item
lacks `max_score` escapes the clamp yet is summed) give
`performance_percentage = -33`, the truncation toward zero, while
`floor(100 · (-1) / 3) = -34`. -/
theorem C4_counterexample :
    (Result.from_list
        ⟨some true,
          some [⟨some "c", some "cr", some (-1), none, none⟩,
            ⟨some "c", some "cr", none, some 3, none⟩],
          some [], some [], none⟩ none).map
        (fun r => (r.total_score, r.max_possible_score,
          r.performance_percentage)) = some (-1, 3, -33)
    ∧ (Rat.divInt (100 * (-1)) 3).floor = -34 :=
  ⟨by decide, by decide⟩

/-- C4 (amended): `total_score` and `max_possible_score` are the sums over
evaluations whose respective values are present, and
`performance_percentage` is the *truncation toward zero* of
`100 · total / max` when `max > 0` (hence equal to the floor whenever
`total_score ≥ 0`, but not for negative totals) and `0` when `max ≤ 0`;
arithmetic is idealized as exact rationals. -/
theorem C4_perf_floor_when_nonneg (data : LLMData) (m : Option CritMapping)
    (r : Result) (h : Result.from_list data m = some r) :
    r.total_score = (r.evaluations.filterMap (fun e => e.score_given)).sum ∧
    r.max_possible_score =
      (r.evaluations.filterMap (fun e => e.max_score)).sum ∧
    (0 < r.max_possible_score → 0 ≤ r.total_score →
      r.performance_percentage =
        ((100 * (r.total_score : Rat)) / (r.max_possible_score : Rat)).floor) ∧
    (r.max_possible_score ≤ 0 → r.performance_percentage = 0) := by
  rcases data with ⟨s, ev, rec, agr, dr⟩
  cases ev with
  | none => simp [Result.from_list] at h
  | some evs =>
    cases rec with
    | none => simp [Result.from_list] at h
    | some recs =>
      cases agr with
      | none => simp [Result.from_list] at h
      | some agrs =>
        simp only [Result.from_list, Option.some.injEq] at h
        subst h
        refine ⟨?_, ?_, ?_, ?_⟩
        · simp only []
          rw [foldl_add_eq_sum, zero_add]
        · simp only []
          rw [foldl_add_eq_sum, zero_add]
        · intro hm ht
          simp only [] at hm ht ⊢
          rw [if_pos hm]
          have hq : Rat.divInt
              (100 * ((List.filterMap (fun e => e.score_given)
                (Evaluation.from_list evs m)).foldl (· + ·) 0))
              ((List.filterMap (fun e => e.max_score)
                (Evaluation.from_list evs m)).foldl (· + ·) 0) =
              ((100 * ((List.filterMap (fun e => e.score_given)
                (Evaluation.from_list evs m)).foldl (· + ·) 0) : Int) : Rat) /
              (((List.filterMap (fun e => e.max_score)
                (Evaluation.from_list evs m)).foldl (· + ·) 0 : Int) : Rat) :=
            Rat.divInt_eq_div _ _
          rw [pyInt, hq, if_neg, ]
          · congr 1
            push_cast
            ring
          · rw [not_lt]
            apply div_nonneg
            · push_cast
              have : (0 : Rat) ≤ ((List.filterMap (fun e => e.score_given)
                  (Evaluation.from_list evs m)).foldl (· + ·) 0 : Int) := by
                exact_mod_cast ht
              linarith
            · exact_mod_cast le_of_lt hm
        · intro hm
          simp only [] at hm ⊢
          rw [if_neg (by omega)]

/-- Witness for C4 (amended) at a concrete parsed mapping (one evaluation
scoring 1 of 2: percentage 50 = floor(100·1/2)). -/
theorem C4_perf_floor_when_nonneg_witness :
    Result.from_list
        ⟨some true, some [⟨some "c", some "cr", some 1, some 2, none⟩],
          some [], some [], none⟩ none =
      some ⟨true, 1, 2, 50, [⟨"c", "cr", some 1, some 2, none⟩], [], [],
        none⟩ ∧
    (50 : Int) =
      ((100 * ((1 : Int) : Rat)) / (((2 : Int) : Int) : Rat)).floor :=
  ⟨by decide,
    (C4_perf_floor_when_nonneg
      ⟨some true, some [⟨some "c", some "cr", some 1, some 2, none⟩],
        some [], some [], none⟩ none
      ⟨true, 1, 2, 50, [⟨"c", "cr", some 1, some 2, none⟩], [], [], none⟩
      (by decide)).2.2.1 (by decide) (by decide)⟩

/-! ## Claim theorems: the pipeline's use of the Label Normalizer -/

/-- C2 counterexample: the pipeline's `Result.from_list(analysis_data)`
call passes no `CriterionMapping`, so an evaluation labelled
`" greeting "` comes out merely whitespace-collapsed (`"greeting"`),
whereas `Result.from_list` *with* the mapping built from the taxonomy
entry `("Greeting", "Said hello")` would return the canonical
`"Greeting"`; the two outputs differ. -/
theorem C2_counterexample :
    ((analyze_single_call ⟨"s1", some [("operator", "hi")]⟩
        (fun _ => .ok
          ⟨some true,
            some [⟨some " greeting ", some " said   hello ", some 5,
              some 10, none⟩],
            some [], some [], none⟩ 5)).result.map
      (fun p => p.1.analysis_result.evaluations.map
        (fun e => (e.category, e.criterion))))
      = some [("greeting", "said hello")]
    ∧ (Result.from_list
        ⟨some true,
          some [⟨some " greeting ", some " said   hello ", some 5, some 10,
            none⟩],
          some [], some [], none⟩
        (some (build_criterion_mapping
          [⟨"Greeting", "Said hello", "", 5, ""⟩]))).map
        (fun r => r.evaluations.map (fun e => (e.category, e.criterion)))
      = some [("Greeting", "Said hello")]
    ∧ ("greeting", "said hello") ≠ ("Greeting", "Said hello") :=
  ⟨by decide, by decide, by decide⟩

/-- C2 (amended): the concurrent pipeline invokes `Result.from_list` with
*no* `CriterionMapping`, so every successful report's evaluation labels
are only whitespace-collapsed from the model's strings; the §4.5
normalization is not applied by `analyze_single_call`. -/
theorem C2_pipeline_collapse_only (call : CallRecord)
    (attempts : Nat → AttemptResult) (data : LLMData) (tokens : Nat)
    (items : List EvalItem) (r : Result)
    (ht : call.transcription.isSome)
    (h0 : attempts 0 = .ok data tokens)
    (hsales : data.is_sales_call.getD false = true)
    (hitems : data.evaluations = some items)
    (hr : Result.from_list data none = some r) :
    (analyze_single_call call attempts).result = some (⟨call, r⟩, tokens) ∧
    r.evaluations.map (fun e => (e.category, e.criterion)) =
      items.map (fun i => (cleanWs (i.category.getD ""),
        cleanWs (i.criterion.getD ""))) := by
  constructor
  · simp [analyze_single_call, Option.isSome_iff_ne_none.mp ht, analyzeGo,
      h0, hsales, hr]
  · have hev : r.evaluations = Evaluation.from_list items none := by
      rcases data with ⟨s, ev, rec, agr, dr⟩
      simp only at hitems
      subst hitems
      cases rec with
      | none => simp [Result.from_list] at hr
      | some recs =>
        cases agr with
        | none => simp [Result.from_list] at hr
        | some agrs =>
          simp only [Result.from_list, Option.some.injEq] at hr
          subst hr
          rfl
    rw [hev]
    simp only [Evaluation.from_list, List.map_map]
    apply List.map_congr_left
    intro i _
    simp [evalOfItem]

/-- Witness for C2 (amended) at a concrete call script. -/
theorem C2_pipeline_collapse_only_witness :
    (analyze_single_call ⟨"s1", some [("operator", "hi")]⟩
        (fun _ => .ok
          ⟨some true,
            some [⟨some " a  b ", some " c ", some 1, some 2, none⟩],
            some [], some [], none⟩ 9)).result =
      some (⟨⟨"s1", some [("operator", "hi")]⟩,
        ⟨true, 1, 2, 50, [⟨"a b", "c", some 1, some 2, none⟩], [], [],
          none⟩⟩, 9) ∧
    ([(⟨"a b", "c", some 1, some 2, none⟩ : Evaluation)].map
        (fun e => (e.category, e.criterion)) =
      [(⟨some " a  b ", some " c ", some 1, some 2, none⟩ : EvalItem)].map
        (fun i => (cleanWs (i.category.getD ""),
          cleanWs (i.criterion.getD "")))) :=
  C2_pipeline_collapse_only ⟨"s1", some [("operator", "hi")]⟩
    (fun _ => .ok
      ⟨some true, some [⟨some " a  b ", some " c ", some 1, some 2, none⟩],
        some [], some [], none⟩ 9)
    ⟨some true, some [⟨some " a  b ", some " c ", some 1, some 2, none⟩],
      some [], some [], none⟩ 9
    [⟨some " a  b ", some " c ", some 1, some 2, none⟩]
    ⟨true, 1, 2, 50, [⟨"a b", "c", some 1, some 2, none⟩], [], [], none⟩
    rfl rfl (by decide) (by decide) (by decide)

/-! ## Claim theorems: exact-match idempotence of the Label Normalizer -/

theorem dictGet?_dictInsert {α β : Type} [DecidableEq α] (k k' : α) (v : β)
    (m : List (α × β)) :
    dictGet? k (dictInsert k' v m) =
      if k' = k then some v else dictGet? k m := by
  induction m with
  | nil => simp [dictInsert, dictGet?]
  | cons e t ih =>
    obtain ⟨ke, ve⟩ := e
    simp only [dictInsert]
    by_cases h1 : ke = k'
    · subst h1
      rw [if_pos rfl]
      simp only [dictGet?]
      by_cases h2 : ke = k
      · simp [h2]
      · simp [h2]
    · rw [if_neg h1]
      simp only [dictGet?]
      by_cases h2 : ke = k
      · have hk : ¬ k' = k := fun h => h1 (h2.trans h.symm)
        rw [if_pos h2, if_neg hk, if_pos h2]
      · rw [if_neg h2, if_neg h2]
        exact ih

theorem dictGet?_build (criteria : List Criterion) (m0 : CritMapping)
    (k : String × String) :
    dictGet? k
        (criteria.foldl (fun m c => dictInsert (normKey c) (origPair c) m)
          m0) =
      (criteria.reverse.find? (fun c => normKey c = k)).elim
        (dictGet? k m0) (fun c => some (origPair c)) := by
  induction criteria generalizing m0 with
  | nil => simp
  | cons c t ih =>
    simp only [List.foldl_cons, List.reverse_cons, List.find?_append]
    rw [ih]
    cases hf : t.reverse.find? (fun c' => decide (normKey c' = k)) with
    | some x => simp [hf]
    | none =>
      simp only [hf, Option.elim, Option.none_or]
      rw [dictGet?_dictInsert]
      by_cases hk : normKey c = k
      · simp [List.find?, hk]
      · simp [List.find?, hk]

/-- C8 counterexample: two taxonomy rows whose labels normalize to the
same key — `("A", "B")` and `("a", "b")` — make the mapping's last write
win, so looking up the verbatim first pair returns the *other* canonical
pair, not itself. -/
theorem C8_counterexample :
    find_best_match "A" "B"
        (build_criterion_mapping
          [⟨"A", "B", "", 1, ""⟩, ⟨"a", "b", "", 1, ""⟩]) = some ("a", "b")
    ∧ ("a", "b") ≠ ("A", "B") :=
  ⟨by decide, by decide⟩

/-- C8 (amended): for every taxonomy entry whose normalized key is shared
by no entry with a different original pair (in particular whenever the
normalized keys are pairwise distinct), the exact-match lookup of
`find_best_match` hits and returns that canonical pair unchanged. -/
theorem C8_exact_roundtrip (criteria : List Criterion) (c : Criterion)
    (hc : c ∈ criteria)
    (huniq : ∀ c' ∈ criteria, normKey c' = normKey c →
      origPair c' = origPair c) :
    find_best_match c.category c.indicator
        (build_criterion_mapping criteria) =
      some (c.category, c.indicator) := by
  have hget : dictGet? (normKey c) (build_criterion_mapping criteria) =
      some (origPair c) := by
    rw [build_criterion_mapping, dictGet?_build]
    have hsome :
        (criteria.reverse.find? (fun c' => normKey c' = normKey c)).isSome := by
      rw [List.find?_isSome]
      exact ⟨c, by simpa using hc, by simp⟩
    obtain ⟨c'', hfind⟩ := Option.isSome_iff_exists.mp hsome
    rw [hfind]
    have h1 : normKey c'' = normKey c := by
      simpa using List.find?_some hfind
    have h2 : c'' ∈ criteria := by
      simpa using List.mem_of_find?_eq_some hfind
    simp [huniq c'' h2 h1]
  have hget' : dictGet? (normalize_text c.category,
      normalize_text c.indicator) (build_criterion_mapping criteria) =
      some (c.category, c.indicator) := hget
  simp [find_best_match, hget']

/-- Witness for C8 (amended) at a one-row taxonomy. -/
theorem C8_exact_roundtrip_witness :
    find_best_match "Greeting" "Said hello"
        (build_criterion_mapping [⟨"Greeting", "Said hello", "", 5, ""⟩]) =
      some ("Greeting", "Said hello") :=
  C8_exact_roundtrip [⟨"Greeting", "Said hello", "", 5, ""⟩]
    ⟨"Greeting", "Said hello", "", 5, ""⟩ (by decide) (by decide)

/-! ## Claim theorems: fuzzy selection of the Label Normalizer -/

theorem fuzzyFold_snd (nlc nlcr : String) (l : CritMapping)
    (bm : Option (String × String)) (bs : Rat) :
    (fuzzyFold nlc nlcr l (bm, bs)).2 =
      l.foldl (fun a e => max a (avgSim nlc nlcr e)) bs := by
  induction l generalizing bm bs with
  | nil => rfl
  | cons e t ih =>
    simp only [fuzzyFold, List.foldl_cons]
    by_cases h : bs < avgSim nlc nlcr e
    · rw [if_pos h, ih, max_eq_right (le_of_lt h)]
    · rw [if_neg h, ih, max_eq_left (not_lt.mp h)]

theorem fuzzyFold_of_le (nlc nlcr : String) (l : CritMapping)
    (bm : Option (String × String)) (bs : Rat)
    (h : ∀ e ∈ l, avgSim nlc nlcr e ≤ bs) :
    fuzzyFold nlc nlcr l (bm, bs) = (bm, bs) := by
  induction l with
  | nil => rfl
  | cons e t ih =>
    simp only [fuzzyFold]
    rw [if_neg (not_lt.mpr (h e (by simp)))]
    exact ih fun x hx => h x (by simp [hx])

theorem le_foldlMax (nlc nlcr : String) (l : CritMapping) (b : Rat) :
    b ≤ l.foldl (fun a e => max a (avgSim nlc nlcr e)) b := by
  induction l generalizing b with
  | nil => exact le_refl b
  | cons e t ih => exact le_trans (le_max_left _ _) (ih (max b _))

theorem mem_le_foldlMax (nlc nlcr : String) (l : CritMapping) (b : Rat) :
    ∀ x ∈ l, avgSim nlc nlcr x ≤
      l.foldl (fun a e => max a (avgSim nlc nlcr e)) b := by
  intro x hx
  induction l generalizing b with
  | nil => cases hx
  | cons e t ih =>
    simp only [List.foldl_cons]
    rcases List.mem_cons.mp hx with h | h
    · subst h
      exact le_trans (le_max_right _ _) (le_foldlMax nlc nlcr t _)
    · exact ih _ h

theorem fuzzyFold_fst_find (nlc nlcr : String) (l : CritMapping)
    (bm : Option (String × String)) (bs : Rat)
    (h : bs < (fuzzyFold nlc nlcr l (bm, bs)).2) :
    (fuzzyFold nlc nlcr l (bm, bs)).1 =
      (l.find? (fun e =>
        avgSim nlc nlcr e = (fuzzyFold nlc nlcr l (bm, bs)).2)).map
        Prod.snd := by
  induction l generalizing bm bs with
  | nil => exact absurd h (lt_irrefl bs)
  | cons e t ih =>
    by_cases hlt : bs < avgSim nlc nlcr e
    · have hstep : fuzzyFold nlc nlcr (e :: t) (bm, bs) =
          fuzzyFold nlc nlcr t (some e.2, avgSim nlc nlcr e) := by
        simp only [fuzzyFold]
        rw [if_pos hlt]
      rw [hstep] at h ⊢
      by_cases h2 : avgSim nlc nlcr e <
          (fuzzyFold nlc nlcr t (some e.2, avgSim nlc nlcr e)).2
      · have hne : ¬ (avgSim nlc nlcr e =
            (fuzzyFold nlc nlcr t (some e.2, avgSim nlc nlcr e)).2) :=
          ne_of_lt h2
        rw [List.find?_cons_of_neg _ (by simpa using hne)]
        exact ih (some e.2) (avgSim nlc nlcr e) h2
      · have hle : ∀ x ∈ t, avgSim nlc nlcr x ≤ avgSim nlc nlcr e := by
          intro x hx
          have h1 := mem_le_foldlMax nlc nlcr t (avgSim nlc nlcr e) x hx
          have h2' := not_lt.mp h2
          rw [fuzzyFold_snd] at h2'
          exact le_trans h1 h2'
        have hconst := fuzzyFold_of_le nlc nlcr t (some e.2)
          (avgSim nlc nlcr e) hle
        rw [hconst]
        rw [List.find?_cons_of_pos _ (by simp)]
        rfl
    · have hstep : fuzzyFold nlc nlcr (e :: t) (bm, bs) =
          fuzzyFold nlc nlcr t (bm, bs) := by
        simp only [fuzzyFold]
        rw [if_neg hlt]
      rw [hstep] at h ⊢
      have hne : ¬ (avgSim nlc nlcr e = (fuzzyFold nlc nlcr t (bm, bs)).2) := by
        intro hcontra
        have := not_lt.mp hlt
        rw [hcontra] at this
        exact absurd (lt_of_lt_of_le h this) (lt_irrefl bs)
      rw [List.find?_cons_of_neg _ (by simpa using hne)]
      exact ih bm bs h

/-- C9: on an exact-match miss with a non-empty mapping, `find_best_match`
selects according to the spec's rule: compute for each mapping entry the
arithmetic mean of the similarity ratios of the normalized category and
criterion strings (`specAvg`/`bestSimSpec`), pick the entry with the
highest mean with the first maximum winning ties (`firstBestEntry`),
return its canonical pair iff that maximum is ≥ 0.85, and otherwise
return the whitespace-collapsed inputs with no substitution. -/
theorem C9_fuzzy_selection (lc lcr : String) (mapping : CritMapping)
    (hmiss : dictGet? (normalize_text lc, normalize_text lcr) mapping = none)
    (hne : mapping ≠ []) :
    find_best_match lc lcr mapping =
      if similarity_threshold ≤
          bestSimSpec (normalize_text lc) (normalize_text lcr) mapping then
        (firstBestEntry (normalize_text lc) (normalize_text lcr)
          mapping).map Prod.snd
      else some (cleanWs lc, cleanWs lcr) := by
  have hAeq : specAvg (normalize_text lc) (normalize_text lcr) =
      avgSim (normalize_text lc) (normalize_text lcr) :=
    funext fun e => (ratAvg_eq _ _).symm
  have hbest : bestSimSpec (normalize_text lc) (normalize_text lcr)
      mapping =
      (fuzzyFold (normalize_text lc) (normalize_text lcr) mapping
        (none, 0)).2 := by
    rw [bestSimSpec, hAeq, List.foldl_map, fuzzyFold_snd]
  have hfirst : firstBestEntry (normalize_text lc) (normalize_text lcr)
      mapping =
      mapping.find? (fun e =>
        avgSim (normalize_text lc) (normalize_text lcr) e =
          (fuzzyFold (normalize_text lc) (normalize_text lcr) mapping
            (none, 0)).2) := by
    rw [firstBestEntry, hAeq, hbest]
  rw [hbest, hfirst]
  simp only [find_best_match, hmiss]
  by_cases hth : similarity_threshold ≤
      (fuzzyFold (normalize_text lc) (normalize_text lcr) mapping
        (none, 0)).2
  · rw [if_pos hth, if_pos hth]
    exact fuzzyFold_fst_find _ _ _ _ _
      (lt_of_lt_of_le (by decide : (0 : Rat) < similarity_threshold) hth)
  · rw [if_neg hth, if_neg hth]

/-- Witness for C9 at a concrete miss (typo inputs against a one-row
taxonomy). -/
theorem C9_fuzzy_selection_witness :
    find_best_match "greetin" "said helo"
        (build_criterion_mapping [⟨"Greeting", "Said hello", "", 5, ""⟩]) =
      if similarity_threshold ≤
          bestSimSpec (normalize_text "greetin") (normalize_text "said helo")
            (build_criterion_mapping
              [⟨"Greeting", "Said hello", "", 5, ""⟩]) then
        (firstBestEntry (normalize_text "greetin")
          (normalize_text "said helo")
          (build_criterion_mapping
            [⟨"Greeting", "Said hello", "", 5, ""⟩])).map Prod.snd
      else some (cleanWs "greetin", cleanWs "said helo") :=
  C9_fuzzy_selection "greetin" "said helo"
    (build_criterion_mapping [⟨"Greeting", "Said hello", "", 5, ""⟩])
    (by decide) (by decide)
